import Mathlib

/-
Verification of the hotel_assist agent pipeline and memory store.

This development embeds, as Lean definitions, the parts of the repository
that the verified properties speak about:

  * src/utils/vector_store.py  (Memory, VectorStore.find_similar_memory,
    VectorStore.store_memory, VectorStore.search_memories)
  * src/agents/agents.py       (Agent.get_llm and its fallback,
    MemoryExtractionAgent response processing and memory storage,
    ReservationAgent response classification and normalization,
    the message-history updates of both agents)
  * src/models/llm.py, src/models/groq.py (handle_function_call)
  * src/models/__init__.py, src/models/base.py (create_model / registry)

External collaborators (the qdrant client, the sentence-transformer
embedding model, Python's json module, the MCP tool session, the concrete
LLM SDKs) are modelled at their interface boundary: the embedding/cosine
similarity is an abstract function `sim` carried in an environment, the
qdrant collection is a list of points with qdrant's upsert-by-id
semantics, the tool session is an abstract function returning either a
result or a raised error, and Python's `json.loads` / `json.dumps` are
given as an executable recursive-descent parser / serializer covering the
JSON fragment the code manipulates (objects, arrays, integers, strings,
booleans, null; floats are not produced or consumed by any property
below).
-/

namespace HotelAssist

/-- JSON-like values, modelling the Python values the agents pass around
(results of `json.loads`, metadata dictionaries, tool results). -/
inductive JValue where
  | null
  | bool (b : Bool)
  | num (n : Int)
  | str (s : String)
  | arr (items : List JValue)
  | obj (fields : List (String × JValue))

mutual

/-- Decidable equality of JSON values (the deriving handler does not cover
nested inductives, so the instance is spelled out). -/
def decEqJ : (a b : JValue) → Decidable (a = b)
  | .null, .null => isTrue rfl
  | .bool x, .bool y =>
    if h : x = y then isTrue (by rw [h])
    else isFalse (fun c => JValue.noConfusion c (fun hxy => h hxy))
  | .num x, .num y =>
    if h : x = y then isTrue (by rw [h])
    else isFalse (fun c => JValue.noConfusion c (fun hxy => h hxy))
  | .str x, .str y =>
    if h : x = y then isTrue (by rw [h])
    else isFalse (fun c => JValue.noConfusion c (fun hxy => h hxy))
  | .arr xs, .arr ys =>
    match decEqJList xs ys with
    | isTrue h => isTrue (by rw [h])
    | isFalse h => isFalse (fun c => JValue.noConfusion c (fun hxy => h hxy))
  | .obj xs, .obj ys =>
    match decEqJFields xs ys with
    | isTrue h => isTrue (by rw [h])
    | isFalse h => isFalse (fun c => JValue.noConfusion c (fun hxy => h hxy))
  | .null, .bool _ => isFalse (fun h => nomatch h)
  | .null, .num _ => isFalse (fun h => nomatch h)
  | .null, .str _ => isFalse (fun h => nomatch h)
  | .null, .arr _ => isFalse (fun h => nomatch h)
  | .null, .obj _ => isFalse (fun h => nomatch h)
  | .bool _, .null => isFalse (fun h => nomatch h)
  | .bool _, .num _ => isFalse (fun h => nomatch h)
  | .bool _, .str _ => isFalse (fun h => nomatch h)
  | .bool _, .arr _ => isFalse (fun h => nomatch h)
  | .bool _, .obj _ => isFalse (fun h => nomatch h)
  | .num _, .null => isFalse (fun h => nomatch h)
  | .num _, .bool _ => isFalse (fun h => nomatch h)
  | .num _, .str _ => isFalse (fun h => nomatch h)
  | .num _, .arr _ => isFalse (fun h => nomatch h)
  | .num _, .obj _ => isFalse (fun h => nomatch h)
  | .str _, .null => isFalse (fun h => nomatch h)
  | .str _, .bool _ => isFalse (fun h => nomatch h)
  | .str _, .num _ => isFalse (fun h => nomatch h)
  | .str _, .arr _ => isFalse (fun h => nomatch h)
  | .str _, .obj _ => isFalse (fun h => nomatch h)
  | .arr _, .null => isFalse (fun h => nomatch h)
  | .arr _, .bool _ => isFalse (fun h => nomatch h)
  | .arr _, .num _ => isFalse (fun h => nomatch h)
  | .arr _, .str _ => isFalse (fun h => nomatch h)
  | .arr _, .obj _ => isFalse (fun h => nomatch h)
  | .obj _, .null => isFalse (fun h => nomatch h)
  | .obj _, .bool _ => isFalse (fun h => nomatch h)
  | .obj _, .num _ => isFalse (fun h => nomatch h)
  | .obj _, .str _ => isFalse (fun h => nomatch h)
  | .obj _, .arr _ => isFalse (fun h => nomatch h)

/-- Decidable equality of JSON value lists. -/
def decEqJList : (a b : List JValue) → Decidable (a = b)
  | [], [] => isTrue rfl
  | [], _ :: _ => isFalse (fun h => nomatch h)
  | _ :: _, [] => isFalse (fun h => nomatch h)
  | x :: xs, y :: ys =>
    match decEqJ x y, decEqJList xs ys with
    | isTrue h1, isTrue h2 => isTrue (by rw [h1, h2])
    | isFalse h1, _ => isFalse (by intro c; injection c with c1 _; exact h1 c1)
    | _, isFalse h2 => isFalse (by intro c; injection c with _ c2; exact h2 c2)

/-- Decidable equality of JSON object field lists. -/
def decEqJFields : (a b : List (String × JValue)) → Decidable (a = b)
  | [], [] => isTrue rfl
  | [], _ :: _ => isFalse (fun h => nomatch h)
  | _ :: _, [] => isFalse (fun h => nomatch h)
  | (k1, v1) :: fs1, (k2, v2) :: fs2 =>
    if hk : k1 = k2 then
      match decEqJ v1 v2, decEqJFields fs1 fs2 with
      | isTrue h1, isTrue h2 => isTrue (by rw [hk, h1, h2])
      | isFalse h1, _ =>
        isFalse (by intro c; injection c with c1 _; exact h1 (congrArg Prod.snd c1))
      | _, isFalse h2 => isFalse (by intro c; injection c with _ c2; exact h2 c2)
    else
      isFalse (by intro c; injection c with c1 _; exact hk (congrArg Prod.fst c1))

end

instance : DecidableEq JValue := decEqJ

/-- First-occurrence lookup in an association list, modelling Python
`dict.get` (Python dicts have unique keys; association lists with
duplicate keys only arise as a modelling artefact and are ruled out by
`Nodup` hypotheses where the distinction matters). -/
def alookup : List (String × JValue) → String → Option JValue
  | [], _ => none
  | kv :: rest, key => if kv.1 = key then some kv.2 else alookup rest key

/-- Python `d[key] = v` on a dict: update the value in place if the key is
present (preserving position), otherwise append the new binding. -/
def dictSet (d : List (String × JValue)) (key : String) (v : JValue) :
    List (String × JValue) :=
  if (alookup d key).isSome then
    d.map (fun kv => if kv.1 = key then (key, v) else kv)
  else
    d ++ [(key, v)]

/-- Python truthiness of a JSON-like value (`bool(x)`). -/
def jtruthy : JValue → Bool
  | .null => false
  | .bool b => b
  | .num n => decide (n ≠ 0)
  | .str s => decide (s ≠ "")
  | .arr [] => false
  | .arr (_ :: _) => true
  | .obj [] => false
  | .obj (_ :: _) => true

/-- Truthiness of an optional value; Python `None` is falsy. -/
def jtruthyO : Option JValue → Bool
  | none => false
  | some v => jtruthy v

/-- Field access `response.get(key)` on a parsed JSON value: a lookup when
the value is an object, `None` otherwise. -/
def jget (j : JValue) (key : String) : Option JValue :=
  match j with
  | .obj fields => alookup fields key
  | _ => none

/-- Assignment `response[key] = v` on a parsed JSON object; identity on
non-objects (the code only reaches it with dictionaries). -/
def jobjSet (j : JValue) (key : String) (v : JValue) : JValue :=
  match j with
  | .obj fields => .obj (dictSet fields key v)
  | other => other

/- ### A model of Python `json.loads` (the fragment used by the code) -/

/-- Whitespace skipping for the JSON reader. -/
def skipWs : List Char → List Char
  | c :: cs =>
    if c = ' ' ∨ c = '\t' ∨ c = '\n' ∨ c = '\r' then skipWs cs else c :: cs
  | [] => []

/-- Longest digit run at the front of the input. -/
def takeDigits : List Char → List Char × List Char
  | c :: cs =>
    if c.isDigit then
      let r := takeDigits cs
      (c :: r.1, r.2)
    else ([], c :: cs)
  | [] => ([], [])

/-- Numeric value of a digit run. -/
def digitsToNat (ds : List Char) : Nat :=
  ds.foldl (fun acc c => acc * 10 + (c.toNat - '0'.toNat)) 0

/-- Matching of a literal keyword (`true`/`false`/`null` tails). -/
def stripLit : List Char → List Char → Option (List Char)
  | [], input => some input
  | p :: ps, c :: cs => if c = p then stripLit ps cs else none
  | _ :: _, [] => none

/-- Decoding of a backslash escape inside a JSON string literal. -/
def decodeEscape (e : Char) : Option Char :=
  if e = '"' then some '"'
  else if e = '\\' then some '\\'
  else if e = '/' then some '/'
  else if e = 'n' then some '\n'
  else if e = 't' then some '\t'
  else if e = 'r' then some '\r'
  else none

/-- Reading of the body of a JSON string literal after its opening quote;
returns the decoded characters and the input after the closing quote. -/
def parseStrChars : List Char → Option (List Char × List Char)
  | [] => none
  | c :: cs =>
    if c = '"' then some ([], cs)
    else if c = '\\' then
      match cs with
      | [] => none
      | e :: cs2 =>
        match decodeEscape e with
        | none => none
        | some d =>
          match parseStrChars cs2 with
          | some r => some (d :: r.1, r.2)
          | none => none
    else
      match parseStrChars cs with
      | some r => some (c :: r.1, r.2)
      | none => none

/-- Signalling of a float/exponent continuation after an integer literal;
floats are outside the modelled fragment, so such inputs are rejected. -/
def isFloatCont : List Char → Bool
  | c :: _ => c = '.' ∨ c = 'e' ∨ c = 'E'
  | [] => false

mutual

/-- Recursive-descent JSON value reader with fuel (the fuel is at least the
input length plus one at every call from `json_loads`, so it never runs
out on real inputs). -/
def parseVal : Nat → List Char → Option (JValue × List Char)
  | 0, _ => none
  | fuel + 1, input =>
    match skipWs input with
    | [] => none
    | c :: cs =>
      if c = '\x7b' then
        match skipWs cs with
        | '\x7d' :: rest => some (.obj [], rest)
        | cs2 =>
          match parseMembers fuel cs2 with
          | some r => some (.obj r.1, r.2)
          | none => none
      else if c = '[' then
        match skipWs cs with
        | ']' :: rest => some (.arr [], rest)
        | cs2 =>
          match parseItems fuel cs2 with
          | some r => some (.arr r.1, r.2)
          | none => none
      else if c = '"' then
        match parseStrChars cs with
        | some r => some (.str (String.mk r.1), r.2)
        | none => none
      else if c = 't' then
        match stripLit ['r', 'u', 'e'] cs with
        | some rest => some (.bool true, rest)
        | none => none
      else if c = 'f' then
        match stripLit ['a', 'l', 's', 'e'] cs with
        | some rest => some (.bool false, rest)
        | none => none
      else if c = 'n' then
        match stripLit ['u', 'l', 'l'] cs with
        | some rest => some (.null, rest)
        | none => none
      else if c = '-' then
        match takeDigits cs with
        | ([], _) => none
        | (ds, rest) =>
          if isFloatCont rest then none
          else some (.num (-(digitsToNat ds : Int)), rest)
      else if c.isDigit then
        match takeDigits (c :: cs) with
        | (ds, rest) =>
          if isFloatCont rest then none
          else some (.num (digitsToNat ds), rest)
      else none

/-- Reader for the members of a non-empty JSON object, up to and including
the closing brace. -/
def parseMembers : Nat → List Char → Option (List (String × JValue) × List Char)
  | 0, _ => none
  | fuel + 1, input =>
    match skipWs input with
    | '"' :: cs =>
      match parseStrChars cs with
      | none => none
      | some kr =>
        match skipWs kr.2 with
        | ':' :: cs2 =>
          match parseVal fuel cs2 with
          | none => none
          | some vr =>
            match skipWs vr.2 with
            | ',' :: cs3 =>
              match parseMembers fuel cs3 with
              | some mr => some ((String.mk kr.1, vr.1) :: mr.1, mr.2)
              | none => none
            | '\x7d' :: cs3 => some ([(String.mk kr.1, vr.1)], cs3)
            | _ => none
        | _ => none
    | _ => none

/-- Reader for the items of a non-empty JSON array, up to and including
the closing bracket. -/
def parseItems : Nat → List Char → Option (List JValue × List Char)
  | 0, _ => none
  | fuel + 1, input =>
    match parseVal fuel input with
    | none => none
    | some vr =>
      match skipWs vr.2 with
      | ',' :: cs =>
        match parseItems fuel cs with
        | some ir => some (vr.1 :: ir.1, ir.2)
        | none => none
      | ']' :: cs => some ([vr.1], cs)
      | _ => none

end

/-- Model of Python `json.loads` on the fragment the code manipulates:
parse one value and require only whitespace to remain. Returns `none`
where `json.loads` raises `json.JSONDecodeError`. -/
def json_loads (s : String) : Option JValue :=
  let cs := s.toList
  match parseVal (cs.length + 1) cs with
  | some r => if skipWs r.2 = [] then some r.1 else none
  | none => none

/-- Escaping of a character for JSON output (`json.dumps` with
`ensure_ascii=False`; the characters needing escapes in this codebase are
quotes, backslashes and the common control characters). -/
def escapeChar (c : Char) : String :=
  if c = '"' then "\\\""
  else if c = '\\' then "\\\\"
  else if c = '\n' then "\\n"
  else if c = '\t' then "\\t"
  else if c = '\r' then "\\r"
  else String.singleton c

/-- Escaping of a string for JSON output. -/
def escapeStr (s : String) : String :=
  String.join (s.toList.map escapeChar)

mutual

/-- Model of Python `json.dumps(value, ensure_ascii=False)` with the
default separators `", "` and `": "`. -/
def json_dumps : JValue → String
  | .null => "null"
  | .bool true => "true"
  | .bool false => "false"
  | .num n => toString n
  | .str s => "\"" ++ escapeStr s ++ "\""
  | .arr items => "[" ++ String.intercalate ", " (dumpsList items) ++ "]"
  | .obj fields => "\x7b" ++ String.intercalate ", " (dumpsFields fields) ++ "\x7d"

/-- Serialization of the items of an array. -/
def dumpsList : List JValue → List String
  | [] => []
  | v :: vs => json_dumps v :: dumpsList vs

/-- Serialization of the fields of an object. -/
def dumpsFields : List (String × JValue) → List String
  | [] => []
  | kv :: fs => ("\"" ++ escapeStr kv.1 ++ "\": " ++ json_dumps kv.2) :: dumpsFields fs

end

/- ### The Memory Store (src/utils/vector_store.py) -/

/-- Memory dataclass of `vector_store.py`: text, metadata, and a
similarity score populated on retrieval. Scores are rationals, standing
for the cosine-similarity floats of the qdrant client. -/
structure Memory where
  text : String
  metadata : List (String × JValue)
  score : Option Rat
deriving DecidableEq

/-- Property `Memory.id`: `self.metadata.get("id")`. -/
def Memory.idVal (m : Memory) : Option JValue :=
  alookup m.metadata "id"

/-- Property `Memory.device_id`: `self.metadata.get("device_id")`. -/
def Memory.deviceId (m : Memory) : Option JValue :=
  alookup m.metadata "device_id"

/-- Qdrant point: an id (a uuid string from the caller's metadata or a
Python `hash(text)` integer) and a payload. The embedding vector is not
carried: similarity is computed by the abstract `sim` function of the
environment directly on texts, standing for cosine similarity of the
sentence-transformer encodings. -/
structure PointStruct where
  id : JValue
  payload : List (String × JValue)
deriving DecidableEq

/-- State of the `long_term_memory` qdrant collection. An absent
collection is the empty list (searches of a missing collection return
`[]`, and `store_memory` creates it before writing). -/
abbrev Store := List PointStruct

/-- Environment of external collaborators of the vector store:
`sim` is the cosine similarity of the sentence-transformer embeddings of
two texts, `pyhash` is Python's `hash` on strings (used as a fallback
point id), and `myDeviceId` is the value of the `VectorStore.device_id`
property (the md5-based machine identifier). -/
structure Env where
  sim : String → String → Rat
  pyhash : String → Int
  myDeviceId : String

/-- `VectorStore.SIMILARITY_THRESHOLD` (vector_store.py line 46), the
rational 0.9. -/
def SIMILARITY_THRESHOLD : Rat := mkRat 9 10

/-- Score of a retrieved memory; search results always carry a score. -/
def memScore (m : Memory) : Rat :=
  m.score.getD 0

/-- Text entry of a payload (`hit.payload["text"]`; every point written by
`store_memory` has one). -/
def payloadText (p : PointStruct) : String :=
  match alookup p.payload "text" with
  | some (.str s) => s
  | _ => ""

/-- Conversion of a search hit into a `Memory`, as in
`search_memories`: the payload's `text` entry becomes the text, the
remaining payload the metadata, and the hit's similarity the score. -/
def memoryOfPoint (env : Env) (query : String) (p : PointStruct) : Memory :=
  { text := payloadText p
    metadata := p.payload.filter (fun kv => decide (kv.1 ≠ "text"))
    score := some (env.sim query (payloadText p)) }

/-- Insertion into a descending-score ordering. -/
def insertDesc (m : Memory) : List Memory → List Memory
  | [] => [m]
  | x :: xs => if memScore x < memScore m then m :: x :: xs else x :: insertDesc m xs

/-- Ranking of search hits by descending similarity, as the qdrant search
endpoint returns them. -/
def sortDesc (l : List Memory) : List Memory :=
  l.foldr insertDesc []

/-- Device filter of `search_memories`: with a device id, only points
whose payload `device_id` matches are searched; with `None`, no filter is
applied. -/
def deviceFilter (dev : Option String) (store : Store) : Store :=
  match dev with
  | none => store
  | some d => store.filter (fun p => decide (alookup p.payload "device_id" = some (.str d)))

/-- `VectorStore.search_memories(query, k, device_id)`: the top-`k`
points by similarity to the query, optionally restricted to one device.
A missing collection (empty store) yields `[]`. -/
def search_memories (env : Env) (store : Store) (query : String) (k : Nat)
    (dev : Option String) : List Memory :=
  ((sortDesc ((deviceFilter dev store).map (memoryOfPoint env query))).take k)

/-- `VectorStore.find_similar_memory(text, device_id)`: the single most
similar memory if its score reaches `SIMILARITY_THRESHOLD`, else `None`. -/
def find_similar_memory (env : Env) (store : Store) (text : String)
    (dev : Option String) : Option Memory :=
  match search_memories env store text 1 dev with
  | [] => none
  | m :: _ => if SIMILARITY_THRESHOLD ≤ memScore m then some m else none

/-- Payload construction `{"text": text, **metadata}` of `store_memory`:
a dict literal starting from the text entry, with the metadata entries
merged over it. -/
def buildPayload (text : String) (md : List (String × JValue)) :
    List (String × JValue) :=
  md.foldl (fun acc kv => dictSet acc kv.1 kv.2) [("text", .str text)]

/-- Qdrant `upsert` of a single point: the point replaces an existing
point with the same id, otherwise it is appended. -/
def upsert (store : Store) (p : PointStruct) : Store :=
  if store.any (fun q => decide (q.id = p.id)) then
    store.map (fun q => if q.id = p.id then p else q)
  else
    store ++ [p]

/-- `VectorStore.store_memory(text, metadata, device_id)`. Returns the
new collection state together with the caller's metadata dict as mutated
by the method (the device id is always written into it; the id is
overwritten when a sufficiently similar memory with a truthy id exists). -/
def store_memory (env : Env) (store : Store) (text : String)
    (metadata : List (String × JValue)) (dev : Option String) :
    Store × List (String × JValue) :=
  let d := dev.getD env.myDeviceId
  let md1 := dictSet metadata "device_id" (.str d)
  let md2 :=
    match find_similar_memory env store text (some d) with
    | some m =>
      if jtruthyO m.idVal then dictSet md1 "id" (m.idVal.getD .null) else md1
    | none => md1
  let pid := (alookup md2 "id").getD (.num (env.pyhash text))
  (upsert store { id := pid, payload := buildPayload text md2 }, md2)

/- ### MemoryExtractionAgent (src/agents/agents.py) -/

/-- `MemoryExtractionAgent._should_store_memory`: the parsed response
must be a dict containing the key `is_important` with a truthy value and
a truthy `formatted_memory`. -/
def should_store_memory (j : JValue) : Bool :=
  match j with
  | .obj fields =>
    (alookup fields "is_important").isSome
      && jtruthyO (alookup fields "is_important")
      && jtruthyO (alookup fields "formatted_memory")
  | _ => false

/-- Dedup lookup of `_process_memory_storage` (agents.py lines 346-355):
`vector_store.find_similar_memory(formatted_memory, None)` — the device
id argument is literally `None`, so the search is not scoped to the
agent's own device. -/
def agent_find_similar (env : Env) (store : Store) (fm : String) : Option Memory :=
  find_similar_memory env store fm none

/-- Device annotation added to the response in the insert branch
(`response["device_info"] = ...` when `vector_store.device_id` is
truthy). -/
def addDeviceInfo (env : Env) (resp : JValue) : JValue :=
  if env.myDeviceId ≠ "" then
    jobjSet resp "device_info" (.str ("Cihaz: " ++ env.myDeviceId.take 8 ++ "..."))
  else resp

/-- `MemoryExtractionAgent._process_memory_storage(response, user_message,
vector_store)`. `newId` and `now` stand for the `str(uuid.uuid4())` and
`datetime.now().isoformat()` values produced at the call site. When the
similarity lookup finds a match, the method only logs and returns: no
store write happens. Only when no match is found does it call
`store_memory` with fresh metadata. When `formatted_memory` is not a
string (unreachable after `_should_store_memory`), the embedding calls
raise inside `safe_execute(reraise=False)` and are swallowed, leaving the
store untouched while the insert branch still annotates the response. -/
def process_memory_storage (env : Env) (resp : JValue) (user_message : String)
    (newId : String) (now : String) (store : Store) : JValue × Store :=
  match jget resp "formatted_memory" with
  | some (.str fm) =>
    match agent_find_similar env store fm with
    | some _ => (resp, store)
    | none =>
      let md : List (String × JValue) :=
        [("id", .str newId), ("timestamp", .str now),
         ("source", .str "conversation"), ("user_message", .str user_message)]
      ((addDeviceInfo env resp), (store_memory env store fm md none).1)
  | _ => (addDeviceInfo env resp, store)

/-- Response handling of `MemoryExtractionAgent._get_llm_response` after
the model call: parse the response text as JSON; on a parse failure
degrade to a `not important` record keeping the raw text; on success run
the storage step when `_should_store_memory` holds and a vector store
handle is present. -/
def process_llm_text (env : Env) (response_text : String) (vs_present : Bool)
    (user_message : String) (newId : String) (now : String) (store : Store) :
    JValue × Store :=
  match json_loads response_text with
  | none =>
    (.obj [("is_important", .bool false), ("formatted_memory", .null),
           ("raw_text", .str response_text)], store)
  | some resp =>
    if should_store_memory resp && vs_present then
      process_memory_storage env resp user_message newId now store
    else (resp, store)

/- ### Message-history updates of both agents (src/agents/agents.py) -/

/-- Role-tagged message of the shared state's `messages` list. -/
structure ChatMessage where
  role : String
  content : String
deriving DecidableEq

/-- Slice of `AgentGraphState` that the two agents mutate: the message
history and the per-agent response slots. -/
structure AgentState where
  messages : List ChatMessage
  memory_extraction_response : Option ChatMessage
  reservation_response : Option ChatMessage
deriving DecidableEq

/-- Python `str(value)` on the atoms the extraction agent can receive
back; container reprs are approximated by the JSON form (the properties
below depend only on message counts, not on this text). -/
def pyStr : JValue → String
  | .null => "None"
  | .bool true => "True"
  | .bool false => "False"
  | .num n => toString n
  | .str s => s
  | .arr items => json_dumps (.arr items)
  | .obj fields => json_dumps (.obj fields)

/-- Serialized message content of `_update_state_with_response`:
`json.dumps(response, ensure_ascii=False)` for dicts, `str(response)`
otherwise. -/
def memResponseContent (resp : JValue) : String :=
  match resp with
  | .obj fields => json_dumps (.obj fields)
  | other => pyStr other

/-- `MemoryExtractionAgent._update_state_with_response`: sets the
extraction slot and appends exactly one assistant message. -/
def update_state_with_response (s : AgentState) (resp : JValue) : AgentState :=
  let msg : ChatMessage := { role := "assistant", content := memResponseContent resp }
  { s with memory_extraction_response := some msg, messages := s.messages ++ [msg] }

/-- `MemoryExtractionAgent._handle_error`: sets the extraction slot to an
error message and appends exactly one assistant message. -/
def handle_error (s : AgentState) (error_message : String) : AgentState :=
  let msg : ChatMessage := { role := "assistant", content := error_message }
  { s with memory_extraction_response := some msg, messages := s.messages ++ [msg] }

/- ### ReservationAgent response classification and normalization -/

/-- Boolean prefix test on character lists. -/
def headMatches : List Char → List Char → Bool
  | [], _ => true
  | _ :: _, [] => false
  | a :: as, b :: bs => decide (a = b) && headMatches as bs

/-- Occurrence of a pattern somewhere in a character list. -/
def hasSub (pat : List Char) : List Char → Bool
  | [] => pat.isEmpty
  | c :: cs => headMatches pat (c :: cs) || hasSub pat cs

/-- Python `pattern in text` on strings. -/
def containsSub (text pat : String) : Bool :=
  hasSub pat.toList text.toList

/-- Marker phrases of `_is_regular_text_response` (agents.py lines
580-585). -/
def tool_markers : List String :=
  ["REZERVASYON KAYITLARI",
   "REZERVASYON EKLEME SONUÇLARI",
   "REZERVASYON GÜNCELLEME SONUÇLARI",
   "REZERVASYON SİLME SONUÇLARI"]

/-- `ReservationAgent._is_regular_text_response`: true when no marker
phrase occurs in the response. -/
def is_regular_text_response (response : String) : Bool :=
  !(tool_markers.any (fun marker => containsSub response marker))

/-- `ReservationAgent._format_tool_response`: parse the response as JSON;
a dict is kept as the original string, any other JSON shape is wrapped
under a `response` field, and unparseable text is wrapped as a string
under the same field. (`json.dumps` of these wrapped values cannot raise,
so the final `except Exception` branch is unreachable.) -/
def format_tool_response (response : String) : String :=
  match json_loads response with
  | some (.obj _) => response
  | some j => json_dumps (.obj [("response", j)])
  | none => json_dumps (.obj [("response", .str response)])

/-- `ReservationAgent._process_reservation_response`: classify the text,
normalize tool responses, set the reservation slot, and append exactly
one assistant message. -/
def process_reservation_response (s : AgentState) (response : String) : AgentState :=
  let content :=
    if is_regular_text_response response then response
    else format_tool_response response
  let msg : ChatMessage := { role := "assistant", content := content }
  { s with reservation_response := some msg, messages := s.messages ++ [msg] }

/-- `ReservationAgent._handle_reservation_error`: sets the reservation
slot to an error message and appends exactly one assistant message. -/
def handle_reservation_error (s : AgentState) (error_message : String) : AgentState :=
  let msg : ChatMessage := { role := "assistant", content := error_message }
  { s with reservation_response := some msg, messages := s.messages ++ [msg] }

/-- Outcome of one agent invocation as it reaches the state-update code:
either agent finishing normally with a processed response, or either
agent's boundary handler absorbing an exception. -/
inductive AgentInvocation where
  | memSuccess (resp : JValue)
  | memError (msg : String)
  | resSuccess (response : String)
  | resError (msg : String)
deriving DecidableEq

/-- State update performed by one agent invocation. -/
def applyInvocation (s : AgentState) : AgentInvocation → AgentState
  | .memSuccess resp => update_state_with_response s resp
  | .memError msg => handle_error s msg
  | .resSuccess response => process_reservation_response s response
  | .resError msg => handle_reservation_error s msg

/-- Sequential run of agent invocations over the shared state. -/
def runInvocations (s : AgentState) (l : List AgentInvocation) : AgentState :=
  l.foldl applyInvocation s

/- ### Backend resolution (Agent.get_llm, models/__init__.py, models/base.py) -/

/-- `ModelError` of utils/exceptions.py as surfaced by
`Agent._create_fallback_model`. -/
inductive ModelErr where
  | modelError (msg : String)
deriving DecidableEq

/-- Environment for backend construction: the outcome of instantiating
the registered model class for a backend name (constructors can raise for
external reasons such as missing API keys). -/
structure ModelEnv where
  construct : String → Except String String

/-- Names registered in `ModelRegistry` (models/llm.py and models/groq.py
register `gemini` and `groq` at import time). -/
def registeredBackends : List String := ["gemini", "groq"]

/-- `models.create_model(model_type, ...)`: a registry lookup followed by
class instantiation; an unregistered name raises `ValueError`, and an
instantiation failure propagates. Both surface as `Except.error` here. -/
def create_model (env : ModelEnv) (name : String) : Except String String :=
  if registeredBackends.contains name then env.construct name
  else .error ("Model not found: " ++ name)

/-- `Agent.get_llm`: use the configured server name (defaulting to
`gemini`), and on any construction failure fall back once to
`create_model("gemini", ...)` via `_create_fallback_model`; if that also
fails, raise `ModelError`. -/
def get_llm (env : ModelEnv) (server : Option String) : Except ModelErr String :=
  let server_name := server.getD "gemini"
  match create_model env server_name with
  | .ok m => .ok m
  | .error _ =>
    match create_model env "gemini" with
    | .ok m => .ok m
    | .error e => .error (.modelError ("Fallback model oluşturulamadı: " ++ e))

/- ### handle_function_call (src/models/llm.py, src/models/groq.py) -/

/-- Tool description as the agents see it: a name and the required
argument names of its input schema. `handle_function_call` consults only
the name. -/
structure ToolSpec where
  name : String
  required : List String
deriving DecidableEq

/-- Result of `session.call_tool`: a structured result, or a raised
exception carrying a message. -/
def ToolSession := String → List (String × JValue) → Except String JValue

/-- `GeminiJSONModel.handle_function_call` (llm.py lines 345-387): the
name must be non-empty and known, the extracted args dict non-empty, and
the session present; every failed check and every raising tool execution
yields a dict with an `error` field. -/
def gemini_handle_function_call (session : Option ToolSession) (name : String)
    (args : List (String × JValue)) (tools : List ToolSpec) : JValue :=
  if name = "" then
    .obj [("error", .str "Fonksiyon adı bulunamadı. Lütfen sorgunuzu daha net bir şekilde belirtin.")]
  else if !(tools.any (fun t => decide (t.name = name))) then
    .obj [("error", .str ("Geçerli bir araç adı değil: " ++ name))]
  else if args.isEmpty then
    .obj [("error", .str ("Araç adı bulundu (" ++ name ++ ") fakat parametreler eksik."))]
  else
    match session with
    | none => .obj [("error", .str "Session is not available for tool execution")]
    | some call =>
      match call name args with
      | .ok v => v
      | .error e => .obj [("error", .str ("Araç çağrısı hatası: " ++ e))]

/-- `Groq.handle_function_call` (groq.py lines 218-256): the same checks;
there is no explicit session guard, but a missing session raises inside
the `try` (an `AttributeError` on `None`) and is converted to the same
error shape by the `except` clause. -/
def groq_handle_function_call (session : Option ToolSession) (name : String)
    (args : List (String × JValue)) (tools : List ToolSpec) : JValue :=
  if name = "" then
    .obj [("error", .str "Function name not found")]
  else if !(tools.any (fun t => decide (t.name = name))) then
    .obj [("error", .str ("Invalid tool name: " ++ name))]
  else if args.isEmpty then
    .obj [("error", .str ("Tool name found (" ++ name ++ ") but parameters are missing"))]
  else
    match session with
    | none =>
      .obj [("error", .str "Tool execution error: 'NoneType' object has no attribute 'call_tool'")]
    | some call =>
      match call name args with
      | .ok v => v
      | .error e => .obj [("error", .str ("Tool execution error: " ++ e))]

/- ### Dictionary lemmas -/

theorem alookup_append (l1 l2 : List (String × JValue)) (k : String) :
    alookup (l1 ++ l2) k = (alookup l1 k).or (alookup l2 k) := by
  induction l1 with
  | nil => simp [alookup]
  | cons kv rest ih =>
    by_cases h : kv.1 = k
    · simp [alookup, h]
    · simp [alookup, h, ih]

theorem alookup_eq_none_iff (d : List (String × JValue)) (k : String) :
    alookup d k = none ↔ ∀ kv ∈ d, kv.1 ≠ k := by
  induction d with
  | nil => simp [alookup]
  | cons kv rest ih =>
    by_cases h : kv.1 = k
    · simp [alookup, h]
    · simp [alookup, h, ih]

theorem alookup_reverse_eq_none (d : List (String × JValue)) (k : String)
    (h : alookup d k = none) : alookup d.reverse k = none := by
  rw [alookup_eq_none_iff] at h ⊢
  intro kv hkv
  exact h kv (List.mem_reverse.mp hkv)

theorem alookup_reverse_of_nodup (d : List (String × JValue)) (k : String)
    (h : (d.map Prod.fst).Nodup) : alookup d.reverse k = alookup d k := by
  induction d with
  | nil => rfl
  | cons kv rest ih =>
    simp only [List.map_cons, List.nodup_cons] at h
    by_cases hk : kv.1 = k
    · have hnone : alookup rest k = none := by
        rw [alookup_eq_none_iff]
        intro kv2 hkv2 hkk
        exact h.1 (by simpa [hkk, hk] using List.mem_map_of_mem Prod.fst hkv2)
      rw [List.reverse_cons, alookup_append, alookup_reverse_eq_none rest k hnone]
      simp [alookup, hk]
    · rw [List.reverse_cons, alookup_append, ih h.2]
      simp [alookup, hk]

theorem alookup_map_update_self (d : List (String × JValue)) (k : String) (v : JValue)
    (h : (alookup d k).isSome) :
    alookup (d.map (fun kv => if kv.1 = k then (k, v) else kv)) k = some v := by
  induction d with
  | nil => simp [alookup] at h
  | cons kv rest ih =>
    by_cases hk : kv.1 = k
    · simp [alookup, hk]
    · simp only [alookup, hk, if_false] at h
      simp only [List.map_cons, if_neg hk]
      simpa [alookup, hk] using ih h

theorem alookup_map_update_ne (d : List (String × JValue)) (k k2 : String) (v : JValue)
    (h : k2 ≠ k) :
    alookup (d.map (fun kv => if kv.1 = k then (k, v) else kv)) k2 = alookup d k2 := by
  induction d with
  | nil => rfl
  | cons kv rest ih =>
    by_cases hk : kv.1 = k
    · have h1 : ¬ (k : String) = k2 := fun c => h c.symm
      have h2 : ¬ kv.1 = k2 := by rw [hk]; exact h1
      simp only [List.map_cons, if_pos hk, alookup, h1, h2, if_false]
      exact ih
    · by_cases hk2 : kv.1 = k2
      · simp [alookup, List.map_cons, if_neg hk, hk2, h]
      · simp only [List.map_cons, if_neg hk, alookup, hk2, if_false]
        exact ih

theorem dictSet_alookup_self (d : List (String × JValue)) (k : String) (v : JValue) :
    alookup (dictSet d k v) k = some v := by
  unfold dictSet
  by_cases h : (alookup d k).isSome
  · rw [if_pos h]
    exact alookup_map_update_self d k v h
  · rw [if_neg h, alookup_append]
    rw [Option.not_isSome_iff_eq_none] at h
    simp [h, alookup]

theorem dictSet_alookup_ne (d : List (String × JValue)) (k k2 : String) (v : JValue)
    (h : k2 ≠ k) : alookup (dictSet d k v) k2 = alookup d k2 := by
  unfold dictSet
  by_cases hs : (alookup d k).isSome
  · rw [if_pos hs]
    exact alookup_map_update_ne d k k2 v h
  · rw [if_neg hs, alookup_append]
    simp [alookup, Ne.symm h, Option.or_none]

theorem alookup_reverse_map_update_self (d : List (String × JValue)) (k : String)
    (v : JValue) (h : (alookup d k).isSome) :
    alookup (d.map (fun kv => if kv.1 = k then (k, v) else kv)).reverse k = some v := by
  induction d with
  | nil => simp [alookup] at h
  | cons kv rest ih =>
    by_cases hk : kv.1 = k
    · simp only [List.map_cons, if_pos hk, List.reverse_cons, alookup_append]
      by_cases hs : (alookup rest k).isSome
      · rw [ih hs]
        rfl
      · rw [Option.not_isSome_iff_eq_none] at hs
        have : alookup (rest.map (fun kv => if kv.1 = k then (k, v) else kv)) k = none := by
          rw [alookup_eq_none_iff] at hs ⊢
          intro kv2 hkv2
          rcases List.mem_map.mp hkv2 with ⟨kv3, hkv3, heq⟩
          by_cases hk3 : kv3.1 = k
          · exact absurd hk3 (hs kv3 hkv3)
          · rw [if_neg hk3] at heq
            rw [heq] at hk3
            exact hk3
        rw [alookup_reverse_eq_none _ _ this]
        simp [alookup]
    · simp only [alookup, hk, if_false] at h
      simp only [List.map_cons, if_neg hk, List.reverse_cons, alookup_append, ih h]
      rfl

theorem dictSet_alookup_reverse_self (d : List (String × JValue)) (k : String) (v : JValue) :
    alookup (dictSet d k v).reverse k = some v := by
  unfold dictSet
  by_cases h : (alookup d k).isSome
  · rw [if_pos h]
    exact alookup_reverse_map_update_self d k v h
  · rw [if_neg h, List.reverse_append, alookup_append]
    simp [alookup]

theorem dictSet_alookup_reverse_ne (d : List (String × JValue)) (k k2 : String) (v : JValue)
    (h : k2 ≠ k) : alookup (dictSet d k v).reverse k2 = alookup d.reverse k2 := by
  unfold dictSet
  by_cases hs : (alookup d k).isSome
  · rw [if_pos hs]
    rw [← List.map_reverse]
    exact alookup_map_update_ne d.reverse k k2 v h
  · rw [if_neg hs, List.reverse_append, alookup_append]
    simp [alookup, Ne.symm h, Option.none_or]

theorem alookup_buildPayload_fold (md : List (String × JValue))
    (acc : List (String × JValue)) (k : String) :
    alookup (md.foldl (fun a kv => dictSet a kv.1 kv.2) acc) k
      = (alookup md.reverse k).or (alookup acc k) := by
  induction md generalizing acc with
  | nil => simp [alookup]
  | cons kv rest ih =>
    simp only [List.foldl_cons, List.reverse_cons, alookup_append, ih]
    by_cases hk : kv.1 = k
    · subst hk
      rw [dictSet_alookup_self]
      simp only [alookup, if_pos rfl]
      cases alookup rest.reverse kv.1 <;> rfl
    · rw [dictSet_alookup_ne _ _ _ _ (fun c => hk c.symm)]
      simp only [alookup, hk, if_false]
      cases alookup rest.reverse k <;> rfl

theorem alookup_buildPayload (text : String) (md : List (String × JValue)) (k : String) :
    alookup (buildPayload text md) k
      = (alookup md.reverse k).or (alookup [("text", JValue.str text)] k) :=
  alookup_buildPayload_fold md _ k

theorem alookup_filter_netext (d : List (String × JValue)) (k : String) (h : k ≠ "text") :
    alookup (d.filter (fun kv => decide (kv.1 ≠ "text"))) k = alookup d k := by
  induction d with
  | nil => rfl
  | cons kv rest ih =>
    rw [List.filter_cons]
    by_cases ht : kv.1 = "text"
    · have h2 : ¬ kv.1 = k := by rw [ht]; exact fun c => h c.symm
      rw [if_neg (by simp [ht]), ih]
      simp [alookup, h2]
    · rw [if_pos (by simp [ht])]
      by_cases hk : kv.1 = k
      · simp [alookup, hk]
      · simp only [alookup, hk, if_false]
        exact ih

/- ### Ranking lemmas -/

theorem mem_insertDesc (m y : Memory) (l : List Memory) :
    y ∈ insertDesc m l ↔ y = m ∨ y ∈ l := by
  induction l with
  | nil => simp [insertDesc]
  | cons x xs ih =>
    by_cases h : memScore x < memScore m
    · simp [insertDesc, h]
    · simp [insertDesc, h, ih]
      tauto

theorem mem_sortDesc (y : Memory) (l : List Memory) :
    y ∈ sortDesc l ↔ y ∈ l := by
  induction l with
  | nil => simp [sortDesc]
  | cons x xs ih =>
    simp only [sortDesc, List.foldr_cons] at ih ⊢
    rw [mem_insertDesc, ih, List.mem_cons]

theorem sortDesc_eq_nil_iff (l : List Memory) : sortDesc l = [] ↔ l = [] := by
  cases l with
  | nil => simp [sortDesc]
  | cons x xs =>
    constructor
    · intro h
      have hx : x ∈ sortDesc (x :: xs) :=
        (mem_sortDesc x (x :: xs)).mpr (List.mem_cons_self x xs)
      rw [h] at hx
      exact absurd hx (List.not_mem_nil x)
    · intro h
      exact absurd h (List.cons_ne_nil x xs)

theorem insertDesc_head_ge (m : Memory) (l : List Memory) (h1 : Memory)
    (t1 : List Memory) (hins : insertDesc m l = h1 :: t1)
    (hle : ∀ y ∈ l, ∀ hy ty, l = hy :: ty → memScore y ≤ memScore hy) :
    memScore m ≤ memScore h1 ∧ ∀ y ∈ l, memScore y ≤ memScore h1 := by
  cases l with
  | nil =>
    simp only [insertDesc, List.cons.injEq] at hins
    constructor
    · rw [← hins.1]
    · intro y hy
      exact absurd hy (List.not_mem_nil y)
  | cons x xs =>
    by_cases hlt : memScore x < memScore m
    · simp only [insertDesc, if_pos hlt, List.cons.injEq] at hins
      rw [← hins.1]
      refine ⟨le_refl _, ?_⟩
      intro y hy
      exact le_trans (hle y hy x xs rfl) (le_of_lt hlt)
    · simp only [insertDesc, if_neg hlt, List.cons.injEq] at hins
      rw [← hins.1]
      refine ⟨le_of_not_lt hlt, ?_⟩
      intro y hy
      exact hle y hy x xs rfl

theorem sortDesc_head_ge (l : List Memory) (h1 : Memory) (t1 : List Memory)
    (hs : sortDesc l = h1 :: t1) : ∀ y ∈ l, memScore y ≤ memScore h1 := by
  induction l generalizing h1 t1 with
  | nil => simp [sortDesc] at hs
  | cons x xs ih =>
    simp only [sortDesc, List.foldr_cons] at hs
    intro y hy
    have hle : ∀ z ∈ sortDesc xs, ∀ hz tz, sortDesc xs = hz :: tz →
        memScore z ≤ memScore hz := by
      intro z hz hz2 tz hsz
      exact ih hz2 tz hsz z ((mem_sortDesc z xs).mp hz)
    have hmain := insertDesc_head_ge x (sortDesc xs) h1 t1 hs hle
    rcases List.mem_cons.mp hy with hyx | hyxs
    · rw [hyx]
      exact hmain.1
    · exact hmain.2 y ((mem_sortDesc y xs).mpr hyxs)

theorem insertDesc_head_of_strict (m : Memory) (l : List Memory)
    (hmax : ∀ y ∈ l, memScore y < memScore m) :
    ∃ t, insertDesc m l = m :: t := by
  cases l with
  | nil => exact ⟨[], rfl⟩
  | cons x xs =>
    have := hmax x (List.mem_cons_self x xs)
    exact ⟨x :: xs, by simp [insertDesc, this]⟩

theorem sortDesc_head_of_strict (l : List Memory) (m : Memory) (hm : m ∈ l)
    (hmax : ∀ y ∈ l, y = m ∨ memScore y < memScore m) :
    ∃ t, sortDesc l = m :: t := by
  induction l with
  | nil => exact absurd hm (List.not_mem_nil m)
  | cons x xs ih =>
    have hsd : sortDesc (x :: xs) = insertDesc x (sortDesc xs) := rfl
    rcases List.mem_cons.mp hm with hxm | hmxs
    · subst hxm
      rcases hx : sortDesc xs with _ | ⟨h1, t1⟩
      · refine ⟨[], ?_⟩
        rw [hsd, hx]
        rfl
      · by_cases hlt : memScore h1 < memScore m
        · refine ⟨h1 :: t1, ?_⟩
          rw [hsd, hx]
          simp [insertDesc, hlt]
        · have hh1 : h1 ∈ xs :=
            (mem_sortDesc h1 xs).mp (by rw [hx]; exact List.mem_cons_self h1 t1)
          rcases hmax h1 (List.mem_cons_of_mem m hh1) with he | hlt2
          · refine ⟨insertDesc m t1, ?_⟩
            rw [hsd, hx]
            simp [insertDesc, hlt, he]
          · exact absurd hlt2 hlt
    · rcases ih hmxs (fun y hy => hmax y (List.mem_cons_of_mem x hy)) with ⟨t, ht⟩
      have hnlt : ¬ memScore m < memScore x := by
        rcases hmax x (List.mem_cons_self x xs) with he | hlt
        · rw [he]
          exact lt_irrefl _
        · exact lt_asymm hlt
      refine ⟨insertDesc x t, ?_⟩
      rw [hsd, ht]
      simp [insertDesc, hnlt]

/- ### Search and upsert lemmas -/

theorem memScore_memoryOfPoint (env : Env) (query : String) (p : PointStruct) :
    memScore (memoryOfPoint env query p) = env.sim query (payloadText p) := by
  simp [memScore, memoryOfPoint]

theorem search_take_one (env : Env) (store : Store) (text : String) (dev : Option String)
    (h1 : Memory) (t1 : List Memory)
    (hs : sortDesc ((deviceFilter dev store).map (memoryOfPoint env text)) = h1 :: t1) :
    search_memories env store text 1 dev = [h1] := by
  unfold search_memories
  rw [hs]
  rfl

theorem search_empty (env : Env) (store : Store) (text : String) (dev : Option String)
    (hs : sortDesc ((deviceFilter dev store).map (memoryOfPoint env text)) = []) :
    search_memories env store text 1 dev = [] := by
  unfold search_memories
  rw [hs]
  rfl

theorem find_similar_none_bound (env : Env) (store : Store) (text : String)
    (dev : Option String) (h : find_similar_memory env store text dev = none) :
    ∀ p ∈ deviceFilter dev store, env.sim text (payloadText p) < SIMILARITY_THRESHOLD := by
  intro p hp
  rcases hs : sortDesc ((deviceFilter dev store).map (memoryOfPoint env text)) with _ | ⟨h1, t1⟩
  · have hmap : (deviceFilter dev store).map (memoryOfPoint env text) = [] :=
      (sortDesc_eq_nil_iff _).mp hs
    have hfil : deviceFilter dev store = [] := List.map_eq_nil_iff.mp hmap
    rw [hfil] at hp
    exact absurd hp (List.not_mem_nil p)
  · unfold find_similar_memory at h
    rw [search_take_one env store text dev h1 t1 hs] at h
    have h2 : (if SIMILARITY_THRESHOLD ≤ memScore h1 then some h1 else none)
        = (none : Option Memory) := h
    have hlt : memScore h1 < SIMILARITY_THRESHOLD := by
      by_cases hc : SIMILARITY_THRESHOLD ≤ memScore h1
      · rw [if_pos hc] at h2
        cases h2
      · exact lt_of_not_le hc
    have hmem : memoryOfPoint env text p ∈ (deviceFilter dev store).map (memoryOfPoint env text) :=
      List.mem_map_of_mem (memoryOfPoint env text) hp
    have hle := sortDesc_head_ge _ h1 t1 hs (memoryOfPoint env text p) hmem
    rw [memScore_memoryOfPoint] at hle
    exact lt_of_le_of_lt hle hlt

theorem find_similar_of_strict (env : Env) (store : Store) (text : String)
    (dev : Option String) (p : PointStruct) (hp : p ∈ deviceFilter dev store)
    (hstrict : ∀ q ∈ deviceFilter dev store,
        memoryOfPoint env text q = memoryOfPoint env text p ∨
          env.sim text (payloadText q) < env.sim text (payloadText p))
    (hth : SIMILARITY_THRESHOLD ≤ env.sim text (payloadText p)) :
    find_similar_memory env store text dev = some (memoryOfPoint env text p) := by
  have hmem : memoryOfPoint env text p ∈ (deviceFilter dev store).map (memoryOfPoint env text) :=
    List.mem_map_of_mem (memoryOfPoint env text) hp
  have hmax : ∀ y ∈ (deviceFilter dev store).map (memoryOfPoint env text),
      y = memoryOfPoint env text p ∨ memScore y < memScore (memoryOfPoint env text p) := by
    intro y hy
    rcases List.mem_map.mp hy with ⟨q, hq, hqy⟩
    rcases hstrict q hq with he | hlt
    · left
      rw [← hqy, he]
    · right
      rw [← hqy, memScore_memoryOfPoint, memScore_memoryOfPoint]
      exact hlt
  rcases sortDesc_head_of_strict _ _ hmem hmax with ⟨t, ht⟩
  unfold find_similar_memory
  rw [search_take_one env store text dev _ t ht]
  show (if SIMILARITY_THRESHOLD ≤ memScore (memoryOfPoint env text p)
      then some (memoryOfPoint env text p) else none) = some (memoryOfPoint env text p)
  rw [if_pos (by rwa [memScore_memoryOfPoint])]

theorem upsert_fresh (store : Store) (p : PointStruct)
    (h : ∀ q ∈ store, q.id ≠ p.id) : upsert store p = store ++ [p] := by
  unfold upsert
  rw [if_neg]
  intro hc
  rcases List.any_eq_true.mp hc with ⟨q, hq, hqe⟩
  exact h q hq (of_decide_eq_true hqe)

theorem upsert_replace_last (store : Store) (p1 p2 : PointStruct)
    (hid : p1.id = p2.id) (h : ∀ q ∈ store, q.id ≠ p2.id) :
    upsert (store ++ [p1]) p2 = store ++ [p2] := by
  unfold upsert
  rw [if_pos (List.any_eq_true.mpr ⟨p1, by simp, by simp [hid]⟩)]
  rw [List.map_append]
  congr 1
  · have hmap : store.map (fun q => if q.id = p2.id then p2 else q) = store.map id := by
      apply List.map_congr_left
      intro q hq
      simp [h q hq]
    rw [hmap, List.map_id]
  · simp [hid]

/- ### Message-history lemmas -/

/-- Assistant message appended by one invocation, by cases on its
outcome. -/
def invMessage : AgentInvocation → ChatMessage
  | .memSuccess resp => { role := "assistant", content := memResponseContent resp }
  | .memError msg => { role := "assistant", content := msg }
  | .resSuccess response =>
    { role := "assistant"
      content :=
        if is_regular_text_response response then response
        else format_tool_response response }
  | .resError msg => { role := "assistant", content := msg }

theorem invMessage_role (i : AgentInvocation) : (invMessage i).role = "assistant" := by
  cases i <;> rfl

theorem applyInvocation_messages (s : AgentState) (i : AgentInvocation) :
    (applyInvocation s i).messages = s.messages ++ [invMessage i] := by
  cases i <;>
    rfl

theorem runInvocations_messages (s : AgentState) (l : List AgentInvocation) :
    (runInvocations s l).messages = s.messages ++ l.map invMessage := by
  induction l generalizing s with
  | nil => simp [runInvocations, List.foldl_nil]
  | cons i rest ih =>
    show (runInvocations (applyInvocation s i) rest).messages = _
    rw [ih, applyInvocation_messages, List.append_assoc]
    rfl

/- ### store_memory unfolding lemmas -/

theorem some_or_eq (a : JValue) (o : Option JValue) : (Option.some a).or o = some a := rfl

theorem store_memory_none_eq (env : Env) (store : Store) (text : String)
    (md : List (String × JValue)) (dev : Option String) (d : String)
    (hd : dev.getD env.myDeviceId = d)
    (h : find_similar_memory env store text (some d) = none) :
    store_memory env store text md dev
      = (upsert store
          ⟨(alookup (dictSet md "device_id" (.str d)) "id").getD (.num (env.pyhash text)),
           buildPayload text (dictSet md "device_id" (.str d))⟩,
         dictSet md "device_id" (.str d)) := by
  simp only [store_memory, hd, h]

theorem store_memory_some_eq (env : Env) (store : Store) (text : String)
    (md : List (String × JValue)) (dev : Option String) (d : String) (m : Memory)
    (iv : JValue) (hd : dev.getD env.myDeviceId = d)
    (h : find_similar_memory env store text (some d) = some m)
    (hiv : m.idVal = some iv) (ht : jtruthy iv = true) :
    store_memory env store text md dev
      = (upsert store
          ⟨iv, buildPayload text (dictSet (dictSet md "device_id" (.str d)) "id" iv)⟩,
         dictSet (dictSet md "device_id" (.str d)) "id" iv) := by
  simp only [store_memory, hd, h, hiv, jtruthyO, ht, if_true, Option.getD_some,
    dictSet_alookup_self]

theorem upsert_hit (store : Store) (p q : PointStruct) (hq : q ∈ store)
    (hid : q.id = p.id) :
    upsert store p = store.map (fun r => if r.id = p.id then p else r) := by
  unfold upsert
  rw [if_pos (List.any_eq_true.mpr ⟨q, hq, by simp [hid]⟩)]

/- ### Concrete instances used by counterexamples and witnesses -/

/-- Similarity function assigning 1 to identical texts and 0 otherwise
(cosine similarity of identical embeddings is 1). -/
def simIndicator (a b : String) : Rat := if a = b then 1 else 0

/-- Concrete vector-store environment of a machine whose device id is
`dev`. -/
def envDev : Env := { sim := simIndicator, pyhash := fun _ => 0, myDeviceId := "dev" }

/-- Empty shared state. -/
def exState : AgentState :=
  { messages := [], memory_extraction_response := none, reservation_response := none }

/-- A failed extraction followed by a successful reservation reply. -/
def exInvs : List AgentInvocation :=
  [.memError "Hafıza çıkarım işlemi hatası: boom", .resSuccess "Merhaba!"]

/-- Store holding one memory for device `dev` with an old timestamp. -/
def c1Store : Store :=
  [⟨.str "A", [("text", .str "Lives in Madrid"), ("id", .str "A"),
               ("device_id", .str "dev"), ("timestamp", .str "2024-01-01T00:00:00")]⟩]

/-- Parsed extraction output marking `Lives in Madrid` as important. -/
def c1Resp : JValue :=
  .obj [("is_important", .bool true), ("formatted_memory", .str "Lives in Madrid")]

/-- Store holding one memory belonging to a foreign device `other`. -/
def c2Store : Store :=
  [⟨.str "X", [("text", .str "Lives in Madrid"), ("id", .str "X"),
               ("device_id", .str "other")]⟩]

/-- Store holding one memory of device `dev` whose payload carries no
`id` entry (written by a caller whose metadata lacked an id). -/
def c10Store : Store :=
  [⟨.num 0, [("text", .str "Lives in Madrid"), ("device_id", .str "dev")]⟩]

/-- Reservation tool whose schema requires a customer name and a date. -/
def reservationTool : ToolSpec := ⟨"add_reservation", ["customer_name", "date"]⟩

/-- Tool session that succeeds on every call. -/
def okSession : ToolSession := fun _ _ => .ok (.str "EXECUTED")

/-- Backend environment in which every model constructor raises. -/
def envAllFail : ModelEnv := { construct := fun _ => .error "API key missing" }

/- ### Claim theorems -/

/-- C5: every agent invocation, on success and on error alike, appends
exactly one assistant-role message to the messages history, removing and
reordering nothing; N invocations grow the history by exactly N. -/
theorem C5_append_only_history (s : AgentState) (l : List AgentInvocation) :
    (runInvocations s l).messages.length = s.messages.length + l.length
    ∧ (runInvocations s l).messages.take s.messages.length = s.messages
    ∧ ∀ m ∈ (runInvocations s l).messages.drop s.messages.length,
        m.role = "assistant" := by
  refine ⟨?_, ?_, ?_⟩
  · rw [runInvocations_messages]
    simp
  · rw [runInvocations_messages, List.take_left]
  · rw [runInvocations_messages, List.drop_left]
    intro m hm
    rcases List.mem_map.mp hm with ⟨i, _, hmi⟩
    rw [← hmi]
    exact invMessage_role i

theorem C5_append_only_history_witness :
    (runInvocations exState exInvs).messages.length = exState.messages.length + exInvs.length
    ∧ ({ role := "assistant", content := "Hafıza çıkarım işlemi hatası: boom" } : ChatMessage).role
        = "assistant" :=
  ⟨(C5_append_only_history exState exInvs).1,
   (C5_append_only_history exState exInvs).2.2
     { role := "assistant", content := "Hafıza çıkarım işlemi hatası: boom" } (by decide)⟩

/-- C6 (amended): a model response text on which JSON parsing fails is
degraded to a response with `is_important` false, `formatted_memory`
null and the raw text retained, without touching the store and without
raising. (A text that parses as JSON but is not an object is returned as
parsed, without those marker fields — see the counterexample.) -/
theorem C6_parse_failure_degrades (env : Env) (text : String) (vs : Bool)
    (u nid now : String) (store : Store) (h : json_loads text = none) :
    process_llm_text env text vs u nid now store
      = (.obj [("is_important", .bool false), ("formatted_memory", .null),
               ("raw_text", .str text)], store) := by
  unfold process_llm_text
  rw [h]

theorem C6_parse_failure_degrades_witness :
    process_llm_text envDev "not json" true "u" "id1" "t1" []
      = (.obj [("is_important", .bool false), ("formatted_memory", .null),
               ("raw_text", .str "not json")], []) :=
  C6_parse_failure_degrades envDev "not json" true "u" "id1" "t1" [] (by decide)

/-- C6 counterexample: the response text `123` is parseable JSON but not
the expected object structure; the agent returns the parsed number
unchanged — its output carries neither `is_important=false` nor a
`raw_text` field, contradicting the claim for this input. -/
theorem C6_wrongshape_counterexample :
    process_llm_text envDev "123" true "u" "id1" "t1" [] = (.num 123, [])
    ∧ jget (.num 123) "is_important" = none
    ∧ jget (.num 123) "raw_text" = none := by
  exact ⟨by decide, rfl, rfl⟩

/-- C7: tool-result normalization: a JSON-object string round-trips
unchanged, any other JSON shape is wrapped under `response`, an
unparseable string is wrapped as a string under `response`; in
particular on the three literal inputs of the claim. -/
theorem C7_tool_response_normalization :
    (∀ s fields, json_loads s = some (.obj fields) → format_tool_response s = s)
    ∧ (∀ s j, json_loads s = some j → (∀ fields, j ≠ .obj fields) →
        format_tool_response s = json_dumps (.obj [("response", j)]))
    ∧ (∀ s, json_loads s = none →
        format_tool_response s = json_dumps (.obj [("response", .str s)]))
    ∧ format_tool_response "\x7b\"a\":1\x7d" = "\x7b\"a\":1\x7d"
    ∧ format_tool_response "[1,2,3]" = "\x7b\"response\": [1, 2, 3]\x7d"
    ∧ format_tool_response "not json" = "\x7b\"response\": \"not json\"\x7d" := by
  refine ⟨?_, ?_, ?_, by decide, by decide, by decide⟩
  · intro s fields h
    unfold format_tool_response
    rw [h]
  · intro s j h hno
    unfold format_tool_response
    rw [h]
    cases j with
    | obj fields => exact absurd rfl (hno fields)
    | null => rfl
    | bool b => rfl
    | num n => rfl
    | str s2 => rfl
    | arr items => rfl
  · intro s h
    unfold format_tool_response
    rw [h]

theorem C7_tool_response_normalization_witness :
    format_tool_response "\x7b\"a\":1\x7d" = "\x7b\"a\":1\x7d"
    ∧ format_tool_response "[1,2,3]"
        = json_dumps (.obj [("response", .arr [.num 1, .num 2, .num 3])])
    ∧ format_tool_response "not json" = json_dumps (.obj [("response", .str "not json")]) :=
  ⟨C7_tool_response_normalization.1 "\x7b\"a\":1\x7d" [("a", .num 1)] (by decide),
   C7_tool_response_normalization.2.1 "[1,2,3]" (.arr [.num 1, .num 2, .num 3])
     (by decide) (fun fields h => by cases h),
   C7_tool_response_normalization.2.2.1 "not json" (by decide)⟩

/-- C8: when construction of the configured backend's model fails,
`get_llm` falls back exactly once to the default backend `gemini`; when
the fallback construction also fails, the result is a `ModelError`. -/
theorem C8_fallback_once (env : ModelEnv) (server : Option String) (e : String)
    (h : create_model env (server.getD "gemini") = .error e) :
    get_llm env server
      = (match create_model env "gemini" with
         | .ok m => .ok m
         | .error e2 => .error (.modelError ("Fallback model oluşturulamadı: " ++ e2)))
    ∧ ∀ e2, create_model env "gemini" = .error e2 →
        get_llm env server
          = .error (.modelError ("Fallback model oluşturulamadı: " ++ e2)) := by
  have hdef : get_llm env server
      = (match create_model env (server.getD "gemini") with
         | .ok m => .ok m
         | .error _ =>
           match create_model env "gemini" with
           | .ok m2 => .ok m2
           | .error e2 => .error (.modelError ("Fallback model oluşturulamadı: " ++ e2))) := rfl
  constructor
  · rw [hdef, h]
  · intro e2 h2
    rw [hdef, h, h2]

theorem C8_fallback_once_witness :
    get_llm envAllFail (some "groq")
      = .error (.modelError ("Fallback model oluşturulamadı: " ++ "API key missing")) :=
  (C8_fallback_once envAllFail (some "groq") "API key missing" rfl).2
    "API key missing" rfl

/-- C9 (amended): both `handle_function_call` implementations execute a
tool call exactly when the name is non-empty and known, the extracted
args mapping is non-empty, and a session is available — the presence of
the schema's required arguments is not checked; every rejected call and
every raising execution yields a dict with an `error` field, never a
propagated fault. -/
theorem C9_validation_and_errors (session : ToolSession) (name : String)
    (args : List (String × JValue)) (tools : List ToolSpec) :
    ((name ≠ "" ∧ tools.any (fun t => decide (t.name = name)) = true ∧ args ≠ []) →
      gemini_handle_function_call (some session) name args tools
        = (match session name args with
           | .ok v => v
           | .error e => .obj [("error", .str ("Araç çağrısı hatası: " ++ e))])
      ∧ groq_handle_function_call (some session) name args tools
        = (match session name args with
           | .ok v => v
           | .error e => .obj [("error", .str ("Tool execution error: " ++ e))]))
    ∧ ((name = "" ∨ tools.any (fun t => decide (t.name = name)) = false ∨ args = []) →
      (∃ msg, gemini_handle_function_call (some session) name args tools
          = .obj [("error", .str msg)])
      ∧ ∃ msg, groq_handle_function_call (some session) name args tools
          = .obj [("error", .str msg)])
    ∧ ((name ≠ "" ∧ tools.any (fun t => decide (t.name = name)) = true ∧ args ≠ []) →
      (∃ msg, gemini_handle_function_call none name args tools = .obj [("error", .str msg)])
      ∧ ∃ msg, groq_handle_function_call none name args tools = .obj [("error", .str msg)]) := by
  have hempty : args ≠ [] → args.isEmpty = false := by
    intro h
    cases args with
    | nil => exact absurd rfl h
    | cons a l => rfl
  refine ⟨?_, ?_, ?_⟩
  · rintro ⟨h1, h2, h3⟩
    constructor
    · unfold gemini_handle_function_call
      rw [if_neg h1, if_neg (by simp [h2]), if_neg (by simp [hempty h3])]
    · unfold groq_handle_function_call
      rw [if_neg h1, if_neg (by simp [h2]), if_neg (by simp [hempty h3])]
  · intro h
    rcases h with h1 | h2 | h3
    · exact ⟨⟨_, by unfold gemini_handle_function_call; rw [if_pos h1]⟩,
             ⟨_, by unfold groq_handle_function_call; rw [if_pos h1]⟩⟩
    · by_cases h1 : name = ""
      · exact ⟨⟨_, by unfold gemini_handle_function_call; rw [if_pos h1]⟩,
               ⟨_, by unfold groq_handle_function_call; rw [if_pos h1]⟩⟩
      · exact ⟨⟨_, by unfold gemini_handle_function_call
                      rw [if_neg h1, if_pos (by simp [h2])]⟩,
               ⟨_, by unfold groq_handle_function_call
                      rw [if_neg h1, if_pos (by simp [h2])]⟩⟩
    · by_cases h1 : name = ""
      · exact ⟨⟨_, by unfold gemini_handle_function_call; rw [if_pos h1]⟩,
               ⟨_, by unfold groq_handle_function_call; rw [if_pos h1]⟩⟩
      · by_cases h2 : tools.any (fun t => decide (t.name = name)) = true
        · exact ⟨⟨_, by unfold gemini_handle_function_call
                        rw [if_neg h1, if_neg (by simp [h2]), if_pos (by simp [h3])]⟩,
                 ⟨_, by unfold groq_handle_function_call
                        rw [if_neg h1, if_neg (by simp [h2]), if_pos (by simp [h3])]⟩⟩
        · exact ⟨⟨_, by unfold gemini_handle_function_call
                        rw [if_neg h1, if_pos (by simp [h2])]⟩,
                 ⟨_, by unfold groq_handle_function_call
                        rw [if_neg h1, if_pos (by simp [h2])]⟩⟩
  · rintro ⟨h1, h2, h3⟩
    exact ⟨⟨_, by unfold gemini_handle_function_call
                  rw [if_neg h1, if_neg (by simp [h2]), if_neg (by simp [hempty h3])]⟩,
           ⟨_, by unfold groq_handle_function_call
                  rw [if_neg h1, if_neg (by simp [h2]), if_neg (by simp [hempty h3])]⟩⟩

theorem C9_validation_and_errors_witness :
    (gemini_handle_function_call (some okSession) "add_reservation"
        [("note", .str "x")] [reservationTool]
      = (match okSession "add_reservation" [("note", JValue.str "x")] with
         | .ok v => v
         | .error e => .obj [("error", .str ("Araç çağrısı hatası: " ++ e))]))
    ∧ ∃ msg, gemini_handle_function_call (some okSession) "list_reservations"
        [("note", .str "x")] [reservationTool] = .obj [("error", .str msg)] :=
  ⟨(C9_validation_and_errors okSession "add_reservation" [("note", .str "x")]
      [reservationTool] |>.1 ⟨by decide, by decide, by decide⟩).1,
   (C9_validation_and_errors okSession "list_reservations" [("note", .str "x")]
      [reservationTool] |>.2.1 (Or.inr (Or.inl (by decide)))).1⟩

/-- C9 counterexample: a call to a known tool whose args mapping is
non-empty but misses the schema's required arguments is still executed —
`handle_function_call` never consults the required-argument list, so the
claim's "executed only if its required arguments are present" fails. -/
theorem C9_required_args_counterexample :
    gemini_handle_function_call (some okSession) "add_reservation"
        [("note", .str "x")] [reservationTool] = .str "EXECUTED"
    ∧ "customer_name" ∈ reservationTool.required
    ∧ alookup [("note", JValue.str "x")] "customer_name" = none := by
  exact ⟨by decide, by decide, by decide⟩

/-- C1 (amended): when the dedup lookup finds a record at or above the
threshold, the extraction agent performs no store write at all — the
store (and the matched record's text and timestamp) is left unchanged;
only when no match is found does it insert a new record through
`store_memory`. -/
theorem C1_dedup_skip_or_insert (env : Env) (resp : JValue) (u nid now : String)
    (store : Store) (fm : String)
    (hfm : jget resp "formatted_memory" = some (.str fm)) :
    (∀ m, agent_find_similar env store fm = some m →
      process_memory_storage env resp u nid now store = (resp, store))
    ∧ (agent_find_similar env store fm = none →
      process_memory_storage env resp u nid now store
        = (addDeviceInfo env resp,
           (store_memory env store fm
             [("id", .str nid), ("timestamp", .str now),
              ("source", .str "conversation"), ("user_message", .str u)] none).1)) := by
  constructor
  · intro m hm
    simp only [process_memory_storage, hfm, hm]
  · intro hm
    simp only [process_memory_storage, hfm, hm]

theorem C1_dedup_skip_or_insert_witness :
    process_memory_storage envDev c1Resp "Madrid'de yaşıyorum" "B" "2025-06-01T00:00:00" c1Store
      = (c1Resp, c1Store) :=
  (C1_dedup_skip_or_insert envDev c1Resp "Madrid'de yaşıyorum" "B" "2025-06-01T00:00:00"
      c1Store "Lives in Madrid" (by decide)).1
    ⟨"Lives in Madrid",
     [("id", .str "A"), ("device_id", .str "dev"), ("timestamp", .str "2024-01-01T00:00:00")],
     some 1⟩
    (by decide)

/-- C1 counterexample: with a record for the same fact already in the
store, the agent's storage step returns the store unchanged — the
matched record keeps its old timestamp instead of being updated in
place, contradicting the claimed upsert. -/
theorem C1_similar_skip_counterexample :
    process_memory_storage envDev c1Resp "Madrid'de yaşıyorum" "B" "2025-06-01T00:00:00" c1Store
      = (c1Resp, c1Store)
    ∧ (∃ m, agent_find_similar envDev c1Store "Lives in Madrid" = some m)
    ∧ alookup [("text", JValue.str "Lives in Madrid"), ("id", JValue.str "A"),
               ("device_id", JValue.str "dev"), ("timestamp", JValue.str "2024-01-01T00:00:00")]
        "timestamp" = some (.str "2024-01-01T00:00:00") := by
  refine ⟨by decide, ⟨⟨"Lives in Madrid",
    [("id", .str "A"), ("device_id", .str "dev"), ("timestamp", .str "2024-01-01T00:00:00")],
    some 1⟩, by decide⟩, by decide⟩

/-- C2 (amended): the agent's dedup lookup applies the fixed 0.9
threshold but passes `device_id=None`, so it is evaluated over the whole
store with no owner filter rather than being scoped to the agent's own
device. -/
theorem C2_lookup_unscoped_threshold (env : Env) (store : Store) (fm : String) :
    agent_find_similar env store fm = find_similar_memory env store fm none
    ∧ deviceFilter none store = store
    ∧ (∀ m, agent_find_similar env store fm = some m → SIMILARITY_THRESHOLD ≤ memScore m)
    ∧ (∀ m t, search_memories env store fm 1 none = m :: t →
        SIMILARITY_THRESHOLD ≤ memScore m → agent_find_similar env store fm = some m) := by
  refine ⟨rfl, rfl, ?_, ?_⟩
  · intro m hm
    unfold agent_find_similar find_similar_memory at hm
    rcases hs : search_memories env store fm 1 none with _ | ⟨m1, t1⟩
    · rw [hs] at hm
      cases hm
    · rw [hs] at hm
      have hm2 : (if SIMILARITY_THRESHOLD ≤ memScore m1 then some m1 else none) = some m := hm
      by_cases hc : SIMILARITY_THRESHOLD ≤ memScore m1
      · rw [if_pos hc] at hm2
        injection hm2 with hmm
        rw [← hmm]
        exact hc
      · rw [if_neg hc] at hm2
        cases hm2
  · intro m t hs hth
    unfold agent_find_similar find_similar_memory
    rw [hs]
    show (if SIMILARITY_THRESHOLD ≤ memScore m then some m else none) = some m
    rw [if_pos hth]

theorem C2_lookup_unscoped_threshold_witness :
    agent_find_similar envDev c2Store "Lives in Madrid"
      = find_similar_memory envDev c2Store "Lives in Madrid" none
    ∧ SIMILARITY_THRESHOLD
        ≤ memScore ⟨"Lives in Madrid", [("id", .str "X"), ("device_id", .str "other")], some 1⟩ :=
  ⟨(C2_lookup_unscoped_threshold envDev c2Store "Lives in Madrid").1,
   (C2_lookup_unscoped_threshold envDev c2Store "Lives in Madrid").2.2.1
     ⟨"Lives in Madrid", [("id", .str "X"), ("device_id", .str "other")], some 1⟩
     (by decide)⟩

/-- C2 counterexample: the agent's lookup matches a record owned by a
different device (`other`), while the same lookup scoped to the agent's
own device finds nothing — the dedup query is not scoped to the same
owner. -/
theorem C2_unscoped_lookup_counterexample :
    (∃ m, agent_find_similar envDev c2Store "Lives in Madrid" = some m
        ∧ m.deviceId = some (.str "other"))
    ∧ find_similar_memory envDev c2Store "Lives in Madrid" (some envDev.myDeviceId) = none := by
  refine ⟨⟨⟨"Lives in Madrid", [("id", .str "X"), ("device_id", .str "other")], some 1⟩,
    by decide, by decide⟩, by decide⟩

/-- C10 (amended): `store_memory` always writes the resolved device id
into the caller's metadata and leaves every key other than `device_id`
and `id` unchanged; the `id` key is overwritten with the similar
record's id exactly when a record at or above the threshold is found AND
that record carries a truthy id — a matched record without an id leaves
the caller's `id` key untouched. -/
theorem C10_metadata_mutation (env : Env) (store : Store) (text : String)
    (md : List (String × JValue)) (dev : Option String) :
    alookup (store_memory env store text md dev).2 "device_id"
        = some (.str (dev.getD env.myDeviceId))
    ∧ (∀ k, k ≠ "device_id" → k ≠ "id" →
        alookup (store_memory env store text md dev).2 k = alookup md k)
    ∧ (∀ m iv, find_similar_memory env store text (some (dev.getD env.myDeviceId)) = some m →
        m.idVal = some iv → jtruthy iv = true →
        (store_memory env store text md dev).2
          = dictSet (dictSet md "device_id" (.str (dev.getD env.myDeviceId))) "id" iv)
    ∧ (∀ m, find_similar_memory env store text (some (dev.getD env.myDeviceId)) = some m →
        jtruthyO m.idVal = false →
        (store_memory env store text md dev).2
          = dictSet md "device_id" (.str (dev.getD env.myDeviceId)))
    ∧ (find_similar_memory env store text (some (dev.getD env.myDeviceId)) = none →
        (store_memory env store text md dev).2
          = dictSet md "device_id" (.str (dev.getD env.myDeviceId))) := by
  have hmd2 : (store_memory env store text md dev).2
      = (match find_similar_memory env store text (some (dev.getD env.myDeviceId)) with
         | some m =>
           if jtruthyO m.idVal then
             dictSet (dictSet md "device_id" (.str (dev.getD env.myDeviceId))) "id"
               (m.idVal.getD .null)
           else dictSet md "device_id" (.str (dev.getD env.myDeviceId))
         | none => dictSet md "device_id" (.str (dev.getD env.myDeviceId))) := rfl
  have hdev : alookup (store_memory env store text md dev).2 "device_id"
      = some (.str (dev.getD env.myDeviceId)) := by
    rw [hmd2]
    rcases find_similar_memory env store text (some (dev.getD env.myDeviceId)) with _ | m
    · exact dictSet_alookup_self md "device_id" _
    · by_cases ht : jtruthyO m.idVal
      · show alookup (if jtruthyO m.idVal = true then _ else _) "device_id" = _
        rw [if_pos ht, dictSet_alookup_ne _ _ _ _ (by decide)]
        exact dictSet_alookup_self md "device_id" _
      · show alookup (if jtruthyO m.idVal = true then _ else _) "device_id" = _
        rw [if_neg ht]
        exact dictSet_alookup_self md "device_id" _
  refine ⟨hdev, ?_, ?_, ?_, ?_⟩
  · intro k hk1 hk2
    rw [hmd2]
    rcases find_similar_memory env store text (some (dev.getD env.myDeviceId)) with _ | m
    · exact dictSet_alookup_ne md "device_id" k _ hk1
    · by_cases ht : jtruthyO m.idVal
      · show alookup (if jtruthyO m.idVal = true then _ else _) k = _
        rw [if_pos ht, dictSet_alookup_ne _ _ _ _ hk2]
        exact dictSet_alookup_ne md "device_id" k _ hk1
      · show alookup (if jtruthyO m.idVal = true then _ else _) k = _
        rw [if_neg ht]
        exact dictSet_alookup_ne md "device_id" k _ hk1
  · intro m iv hfs hiv ht
    exact congrArg Prod.snd
      (store_memory_some_eq env store text md dev _ m iv rfl hfs hiv ht)
  · intro m hfs ht
    rw [hmd2, hfs]
    show (if jtruthyO m.idVal = true then _ else _) = _
    rw [if_neg (by rw [ht]; exact Bool.false_ne_true)]
  · intro hfs
    rw [hmd2, hfs]

theorem C10_metadata_mutation_witness :
    alookup (store_memory envDev [] "Lives in Madrid"
        [("id", .str "B"), ("source", .str "conversation")] none).2 "device_id"
      = some (.str "dev")
    ∧ alookup (store_memory envDev [] "Lives in Madrid"
        [("id", .str "B"), ("source", .str "conversation")] none).2 "source"
      = alookup [("id", JValue.str "B"), ("source", JValue.str "conversation")] "source" :=
  ⟨(C10_metadata_mutation envDev [] "Lives in Madrid"
      [("id", .str "B"), ("source", .str "conversation")] none).1,
   (C10_metadata_mutation envDev [] "Lives in Madrid"
      [("id", .str "B"), ("source", .str "conversation")] none).2.1
     "source" (by decide) (by decide)⟩

/-- C10 counterexample: a record at or above the threshold is found, yet
the caller's `id` key is not overwritten, because the matched record's
payload has no id — the claim's "overwritten exactly when a similar
record is found" fails. -/
theorem C10_metadata_id_counterexample :
    (∃ m, find_similar_memory envDev c10Store "Lives in Madrid" (some "dev") = some m)
    ∧ (store_memory envDev c10Store "Lives in Madrid" [("id", .str "B")] (some "dev")).2
        = [("id", .str "B"), ("device_id", .str "dev")] := by
  refine ⟨⟨⟨"Lives in Madrid", [("device_id", .str "dev")], some 1⟩, by decide⟩, by decide⟩

/-- C4: a stored text whose nearest record reaches the 0.9 threshold is
found by `find_similar_memory` and updated in place under that record's
id (the record count does not grow and the record's text becomes the new
text); when no record reaches the threshold (or none exists),
`find_similar_memory` returns none and `store_memory` appends a new,
distinct record under the metadata's fresh id. -/
theorem C4_threshold_update_or_insert (env : Env) (store : Store) (text : String)
    (md : List (String × JValue)) (d : String) :
    (∀ m t1, search_memories env store text 1 (some d) = m :: t1 →
      SIMILARITY_THRESHOLD ≤ memScore m →
      find_similar_memory env store text (some d) = some m
      ∧ (∀ iv, m.idVal = some iv → jtruthy iv = true →
          (∀ p ∈ store, ∀ v, alookup p.payload "id" = some v → p.id = v) →
          alookup md "text" = none →
          (store_memory env store text md (some d)).1.length = store.length
          ∧ ∃ p ∈ (store_memory env store text md (some d)).1,
              p.id = iv ∧ payloadText p = text))
    ∧ ((search_memories env store text 1 (some d) = []
        ∨ ∃ m t1, search_memories env store text 1 (some d) = m :: t1
            ∧ memScore m < SIMILARITY_THRESHOLD) →
      find_similar_memory env store text (some d) = none
      ∧ ∀ v, alookup md "id" = some v → (∀ p ∈ store, p.id ≠ v) →
        (store_memory env store text md (some d)).1
          = store ++ [⟨v, buildPayload text (dictSet md "device_id" (.str d))⟩]) := by
  constructor
  · intro m t1 hsearch hth
    have hfs : find_similar_memory env store text (some d) = some m := by
      unfold find_similar_memory
      rw [hsearch]
      show (if SIMILARITY_THRESHOLD ≤ memScore m then some m else none) = some m
      rw [if_pos hth]
    refine ⟨hfs, ?_⟩
    intro iv hiv htruthy hWF htext
    have hmem1 : m ∈ sortDesc ((deviceFilter (some d) store).map (memoryOfPoint env text)) := by
      have hms : m ∈ search_memories env store text 1 (some d) := by
        rw [hsearch]
        exact List.mem_cons_self m t1
      exact List.mem_of_mem_take hms
    have hmem2 : m ∈ (deviceFilter (some d) store).map (memoryOfPoint env text) :=
      (mem_sortDesc m _).mp hmem1
    rcases List.mem_map.mp hmem2 with ⟨q, hq, hqm⟩
    have hqstore : q ∈ store := List.mem_of_mem_filter hq
    have hqid : alookup q.payload "id" = some iv := by
      have hid : m.idVal = alookup q.payload "id" := by
        rw [← hqm]
        exact alookup_filter_netext q.payload "id" (by decide)
      rw [← hid, hiv]
    have hqid2 : q.id = iv := hWF q hqstore iv hqid
    have hsm := store_memory_some_eq env store text md (some d) d m iv rfl hfs hiv htruthy
    have hs1 : (store_memory env store text md (some d)).1
        = upsert store
            ⟨iv, buildPayload text (dictSet (dictSet md "device_id" (.str d)) "id" iv)⟩ :=
      congrArg Prod.fst hsm
    have hup := upsert_hit store
      ⟨iv, buildPayload text (dictSet (dictSet md "device_id" (.str d)) "id" iv)⟩
      q hqstore hqid2
    have hptext : payloadText
        ⟨iv, buildPayload text (dictSet (dictSet md "device_id" (.str d)) "id" iv)⟩ = text := by
      unfold payloadText
      rw [alookup_buildPayload]
      have hnone : alookup (dictSet (dictSet md "device_id" (.str d)) "id" iv).reverse "text"
          = none := by
        apply alookup_reverse_eq_none
        rw [dictSet_alookup_ne _ _ _ _ (by decide), dictSet_alookup_ne _ _ _ _ (by decide)]
        exact htext
      rw [hnone, Option.none_or]
      rfl
    constructor
    · rw [hs1, hup, List.length_map]
    · refine ⟨⟨iv, buildPayload text (dictSet (dictSet md "device_id" (.str d)) "id" iv)⟩,
        ?_, rfl, hptext⟩
      rw [hs1, hup]
      refine List.mem_map.mpr ⟨q, hqstore, ?_⟩
      simp [hqid2]
  · intro hdisj
    have hfs : find_similar_memory env store text (some d) = none := by
      rcases hdisj with hempty | ⟨m, t1, hsearch, hlt⟩
      · unfold find_similar_memory
        rw [hempty]
      · unfold find_similar_memory
        rw [hsearch]
        show (if SIMILARITY_THRESHOLD ≤ memScore m then some m else none) = none
        rw [if_neg (not_le.mpr hlt)]
    refine ⟨hfs, ?_⟩
    intro v hid hfresh
    have hsm := store_memory_none_eq env store text md (some d) d rfl hfs
    have hs1 : (store_memory env store text md (some d)).1
        = upsert store
            ⟨(alookup (dictSet md "device_id" (.str d)) "id").getD (.num (env.pyhash text)),
             buildPayload text (dictSet md "device_id" (.str d))⟩ :=
      congrArg Prod.fst hsm
    have hpid : (alookup (dictSet md "device_id" (.str d)) "id").getD (.num (env.pyhash text))
        = v := by
      rw [dictSet_alookup_ne _ _ _ _ (by decide), hid, Option.getD_some]
    rw [hs1, hpid]
    exact upsert_fresh store _ (fun q hq => hfresh q hq)

theorem C4_threshold_update_or_insert_witness :
    ((store_memory envDev c1Store "Lives in Madrid" [("id", .str "B")] (some "dev")).1.length
        = c1Store.length
      ∧ ∃ p ∈ (store_memory envDev c1Store "Lives in Madrid" [("id", .str "B")] (some "dev")).1,
          p.id = .str "A" ∧ payloadText p = "Lives in Madrid")
    ∧ (store_memory envDev c1Store "Likes tea" [("id", .str "B")] (some "dev")).1
        = c1Store
          ++ [⟨.str "B", buildPayload "Likes tea" (dictSet [("id", .str "B")] "device_id" (.str "dev"))⟩] :=
  ⟨((C4_threshold_update_or_insert envDev c1Store "Lives in Madrid" [("id", .str "B")] "dev").1
      ⟨"Lives in Madrid",
       [("id", .str "A"), ("device_id", .str "dev"), ("timestamp", .str "2024-01-01T00:00:00")],
       some 1⟩ []
      (by decide) (by decide)).2 (.str "A") (by decide) (by decide) (by decide) (by decide),
   ((C4_threshold_update_or_insert envDev c1Store "Likes tea" [("id", .str "B")] "dev").2
      (Or.inr ⟨⟨"Lives in Madrid",
        [("id", .str "A"), ("device_id", .str "dev"), ("timestamp", .str "2024-01-01T00:00:00")],
        some 0⟩, [], by decide, by decide⟩)).2 (.str "B") (by decide) (by decide)⟩

/-- C3: storing the same fact text twice in succession under the same
owner (with a fresh metadata id on the first write and no prior match
for the text) leaves exactly one record for that text under that owner:
the first write appends a record under the metadata's id, and the second
write replaces that record in place, reusing the first write's id. -/
theorem C3_store_twice_idempotent (env : Env) (store : Store) (text : String)
    (md1 md2 : List (String × JValue)) (dev : Option String) (d : String) (i1 : String)
    (hd : dev.getD env.myDeviceId = d)
    (hrefl : env.sim text text = 1)
    (hid1 : alookup md1 "id" = some (.str i1))
    (hnodup1 : (md1.map Prod.fst).Nodup)
    (htext1 : alookup md1 "text" = none)
    (htext2 : alookup md2 "text" = none)
    (hne : i1 ≠ "")
    (hfresh : ∀ p ∈ store, p.id ≠ .str i1)
    (hnosim : find_similar_memory env store text (some d) = none) :
    ∃ pay1 pay2,
      (store_memory env store text md1 dev).1 = store ++ [⟨.str i1, pay1⟩]
      ∧ (store_memory env (store_memory env store text md1 dev).1 text md2 dev).1
          = store ++ [⟨.str i1, pay2⟩]
      ∧ alookup pay2 "text" = some (.str text)
      ∧ alookup pay2 "device_id" = some (.str d)
      ∧ (store_memory env (store_memory env store text md1 dev).1 text md2 dev).1.countP
          (fun p => decide (payloadText p = text
            ∧ alookup p.payload "device_id" = some (.str d))) = 1 := by
  have hpid1 : (alookup (dictSet md1 "device_id" (.str d)) "id").getD (.num (env.pyhash text))
      = .str i1 := by
    rw [dictSet_alookup_ne _ _ _ _ (by decide), hid1, Option.getD_some]
  have hs1 : (store_memory env store text md1 dev).1
      = store ++ [⟨.str i1, buildPayload text (dictSet md1 "device_id" (.str d))⟩] := by
    have h1 : (store_memory env store text md1 dev).1
        = upsert store
            ⟨(alookup (dictSet md1 "device_id" (.str d)) "id").getD (.num (env.pyhash text)),
             buildPayload text (dictSet md1 "device_id" (.str d))⟩ :=
      congrArg Prod.fst (store_memory_none_eq env store text md1 dev d hd hnosim)
    rw [h1, hpid1]
    exact upsert_fresh store _ (fun q hq => hfresh q hq)
  have hp1text : alookup (buildPayload text (dictSet md1 "device_id" (.str d))) "text"
      = some (.str text) := by
    rw [alookup_buildPayload]
    have hnone : alookup (dictSet md1 "device_id" (.str d)).reverse "text" = none := by
      apply alookup_reverse_eq_none
      rw [dictSet_alookup_ne _ _ _ _ (by decide)]
      exact htext1
    rw [hnone, Option.none_or]
    rfl
  have hp1ptext :
      payloadText ⟨.str i1, buildPayload text (dictSet md1 "device_id" (.str d))⟩ = text := by
    unfold payloadText
    rw [hp1text]
  have hp1dev : alookup (buildPayload text (dictSet md1 "device_id" (.str d))) "device_id"
      = some (.str d) := by
    rw [alookup_buildPayload, dictSet_alookup_reverse_self]
    rfl
  have hp1id : alookup (buildPayload text (dictSet md1 "device_id" (.str d))) "id"
      = some (.str i1) := by
    rw [alookup_buildPayload, dictSet_alookup_reverse_ne _ _ _ _ (by decide),
        alookup_reverse_of_nodup md1 "id" hnodup1, hid1]
    rfl
  have hbound := find_similar_none_bound env store text (some d) hnosim
  have hfil : deviceFilter (some d) (store_memory env store text md1 dev).1
      = deviceFilter (some d) store
        ++ [⟨.str i1, buildPayload text (dictSet md1 "device_id" (.str d))⟩] := by
    rw [hs1]
    show List.filter _ _ = _
    rw [List.filter_append]
    congr 1
    rw [List.filter_cons]
    rw [if_pos (by simp [hp1dev])]
    rfl
  have hfs2 : find_similar_memory env (store_memory env store text md1 dev).1 text (some d)
      = some (memoryOfPoint env text
          ⟨.str i1, buildPayload text (dictSet md1 "device_id" (.str d))⟩) := by
    apply find_similar_of_strict
    · rw [hfil]
      exact List.mem_append.mpr (Or.inr (List.mem_cons_self _ _))
    · intro q hq
      rw [hfil] at hq
      rcases List.mem_append.mp hq with hql | hqr
      · right
        have hlt := hbound q hql
        rw [hp1ptext, hrefl]
        calc env.sim text (payloadText q) < SIMILARITY_THRESHOLD := hlt
          _ < 1 := by decide
      · left
        have hqp : q = ⟨.str i1, buildPayload text (dictSet md1 "device_id" (.str d))⟩ := by
          simpa using hqr
        rw [hqp]
    · rw [hp1ptext, hrefl]
      decide
  have hm1id : (memoryOfPoint env text
      ⟨.str i1, buildPayload text (dictSet md1 "device_id" (.str d))⟩).idVal
      = some (.str i1) := by
    unfold Memory.idVal memoryOfPoint
    rw [alookup_filter_netext _ _ (by decide)]
    exact hp1id
  have hs2 : (store_memory env (store_memory env store text md1 dev).1 text md2 dev).1
      = store ++ [⟨.str i1,
          buildPayload text (dictSet (dictSet md2 "device_id" (.str d)) "id" (.str i1))⟩] := by
    have h1 : (store_memory env (store_memory env store text md1 dev).1 text md2 dev).1
        = upsert (store_memory env store text md1 dev).1
            ⟨.str i1,
             buildPayload text (dictSet (dictSet md2 "device_id" (.str d)) "id" (.str i1))⟩ :=
      congrArg Prod.fst
        (store_memory_some_eq env (store_memory env store text md1 dev).1 text md2 dev d
          (memoryOfPoint env text
            ⟨.str i1, buildPayload text (dictSet md1 "device_id" (.str d))⟩)
          (.str i1) hd hfs2 hm1id (decide_eq_true hne))
    rw [h1, hs1]
    exact upsert_replace_last store _ _ rfl (fun q hq => hfresh q hq)
  have hp2text : alookup
      (buildPayload text (dictSet (dictSet md2 "device_id" (.str d)) "id" (.str i1))) "text"
      = some (.str text) := by
    rw [alookup_buildPayload]
    have hnone : alookup
        (dictSet (dictSet md2 "device_id" (.str d)) "id" (.str i1)).reverse "text" = none := by
      apply alookup_reverse_eq_none
      rw [dictSet_alookup_ne _ _ _ _ (by decide), dictSet_alookup_ne _ _ _ _ (by decide)]
      exact htext2
    rw [hnone, Option.none_or]
    rfl
  have hp2ptext : payloadText ⟨.str i1,
      buildPayload text (dictSet (dictSet md2 "device_id" (.str d)) "id" (.str i1))⟩ = text := by
    unfold payloadText
    rw [hp2text]
  have hp2dev : alookup
      (buildPayload text (dictSet (dictSet md2 "device_id" (.str d)) "id" (.str i1))) "device_id"
      = some (.str d) := by
    rw [alookup_buildPayload, dictSet_alookup_reverse_ne _ _ _ _ (by decide),
        dictSet_alookup_reverse_self]
    rfl
  refine ⟨buildPayload text (dictSet md1 "device_id" (.str d)),
    buildPayload text (dictSet (dictSet md2 "device_id" (.str d)) "id" (.str i1)),
    hs1, hs2, hp2text, hp2dev, ?_⟩
  rw [hs2, List.countP_append]
  have hzero : store.countP (fun p => decide (payloadText p = text
      ∧ alookup p.payload "device_id" = some (.str d))) = 0 := by
    rw [List.countP_eq_zero]
    intro p hp hc
    have hc2 := of_decide_eq_true hc
    have hpfil : p ∈ deviceFilter (some d) store :=
      List.mem_filter.mpr ⟨hp, by simp [hc2.2]⟩
    have hlt := hbound p hpfil
    rw [hc2.1, hrefl] at hlt
    exact absurd hlt (by decide)
  have hone : List.countP (fun p => decide (payloadText p = text
      ∧ alookup p.payload "device_id" = some (.str d)))
      [⟨.str i1, buildPayload text (dictSet (dictSet md2 "device_id" (.str d)) "id" (.str i1))⟩]
      = 1 := by
    rw [List.countP_cons]
    rw [if_pos (by simp [hp2ptext, hp2dev])]
    rfl
  rw [hzero, hone]

theorem C3_store_twice_idempotent_witness :
    ∃ pay1 pay2,
      (store_memory envDev [] "Lives in Madrid" [("id", .str "A")] none).1
          = [] ++ [⟨.str "A", pay1⟩]
      ∧ (store_memory envDev
            (store_memory envDev [] "Lives in Madrid" [("id", .str "A")] none).1
            "Lives in Madrid" [("id", .str "B")] none).1
          = [] ++ [⟨.str "A", pay2⟩]
      ∧ alookup pay2 "text" = some (.str "Lives in Madrid")
      ∧ alookup pay2 "device_id" = some (.str "dev")
      ∧ (store_memory envDev
            (store_memory envDev [] "Lives in Madrid" [("id", .str "A")] none).1
            "Lives in Madrid" [("id", .str "B")] none).1.countP
          (fun p => decide (payloadText p = "Lives in Madrid"
            ∧ alookup p.payload "device_id" = some (.str "dev"))) = 1 :=
  C3_store_twice_idempotent envDev [] "Lives in Madrid" [("id", .str "A")] [("id", .str "B")]
    none "dev" "A" (by decide) (by decide) (by decide) (by decide) (by decide) (by decide)
    (by decide) (fun p hp => absurd hp (List.not_mem_nil p)) (by decide)

end HotelAssist
